import Mathlib

/-!
Verification development for the mzmlripper package (croningp/mzmlripper).

The Python modules `mzmlripper/spectrum.py`, `mzmlripper/mzml_parser.py` and
`mzmlripper/chromatograms.py` are shallowly embedded below:

* Python `str` values are modelled as `Str := List Char` (Python string
  comparison is lexicographic on code points, which coincides with
  comparison of `Char.toNat`); literals are written through `str`.
* Python `float` values are modelled as exact rationals `ℚ`.  The only
  place where binary-float behaviour is approximated is rounding to four
  decimal places (`"%.4f"` and `round(x, 4)`), which is modelled as
  round-half-up on the exact rational; every concrete input used in a
  theorem below is far from a rounding tie, where all conventions agree.
* Python `dict` values are modelled as association lists (`SpecDict`) with
  `dinsert` reproducing dict assignment: an existing key keeps its position
  and has its value replaced, a new key is appended.
* Fallible Python code (exceptions) is modelled with `Option`/`Except`.
-/

set_option allowUnsafeReducibility true

attribute [semireducible] Rat.add Rat.mul Rat.div Rat.sub Rat.neg Rat.inv Rat.normalize Rat.blt

set_option maxRecDepth 20000

namespace Mzmlripper

/-- Python strings, modelled as lists of characters. -/
abbrev Str := List Char

/-- Conversion from a Lean string literal to the model type. -/
def str (s : String) : Str := s.data

/-- Python `a < b` on strings: strict lexicographic comparison on code points. -/
def lexLt : Str → Str → Bool
  | [], [] => false
  | [], _ :: _ => true
  | _ :: _, [] => false
  | a :: as, b :: bs =>
    if a.toNat < b.toNat then true
    else if b.toNat < a.toNat then false
    else lexLt as bs

/-- Python `a <= b` on strings: lexicographic comparison on code points. -/
def lexLe : Str → Str → Bool
  | [], _ => true
  | _ :: _, [] => false
  | a :: as, b :: bs =>
    if a.toNat < b.toNat then true
    else if b.toNat < a.toNat then false
    else lexLe as bs

/-- Whether `pat` is a prefix of `s`. -/
def isPre : Str → Str → Bool
  | [], _ => true
  | _ :: _, [] => false
  | p :: ps, c :: cs => p == c && isPre ps cs

/-- Python `pat in s` (substring containment; all patterns used are nonempty). -/
def containsSub (s pat : Str) : Bool :=
  match s with
  | [] => isPre pat []
  | _ :: rest => isPre pat s || containsSub rest pat

/-- Splits `s` around the first occurrence of `pat`: `some (before, after)`,
`none` when `pat` does not occur.  Models `re.search` with a non-greedy
pattern / Python `str.find`. -/
def takeUntil (pat : Str) : Str → Option (Str × Str)
  | [] => none
  | c :: rest =>
    if isPre pat (c :: rest) then some ([], (c :: rest).drop pat.length)
    else
      match takeUntil pat rest with
      | some (pre, post) => some (c :: pre, post)
      | none => none

/-- Fuel-driven worker for `splitAll` (the fuel only guarantees structural
termination; it is always sufficient). -/
def splitAllF : Nat → Str → Str → List Str
  | 0, _, s => [s]
  | fuel + 1, pat, s =>
    match takeUntil pat s with
    | none => [s]
    | some (pre, post) => pre :: splitAllF fuel pat post

/-- Python `s.split(pat)` for a nonempty separator `pat`. -/
def splitAll (pat s : Str) : List Str := splitAllF (s.length + 1) pat s

/-- Whether a character is an ASCII digit. -/
def isDigitC (c : Char) : Bool := 48 ≤ c.toNat && c.toNat ≤ 57

/-- Value of a nonempty all-digit character list. -/
def digitsVal (cs : Str) : Nat := cs.foldl (fun a c => a * 10 + (c.toNat - 48)) 0

/-- Whether `cs` is a nonempty run of ASCII digits. -/
def digitsOk (cs : Str) : Bool := !cs.isEmpty && cs.all isDigitC

/-- Python `float(s)` on a plain decimal string (optional sign, optional
fractional part); `none` models the `ValueError` raised on anything else. -/
def parseQ (s : Str) : Option ℚ :=
  let signed : Bool × Str :=
    match s with
    | '-' :: r => (true, r)
    | _ => (false, s)
  match splitAll (str ".") signed.2 with
  | [a] =>
      if digitsOk a then
        some ((if signed.1 then (-1 : ℚ) else 1) * (digitsVal a : ℚ))
      else none
  | [a, b] =>
      if digitsOk a && digitsOk b then
        some ((if signed.1 then (-1 : ℚ) else 1) *
          ((digitsVal a : ℚ) + (digitsVal b : ℚ) / ((10 : ℚ) ^ b.length)))
      else none
  | _ => none

/-- Python `int(s)` on a plain decimal string (optional sign); `none` models
`ValueError`. -/
def strToInt : Str → Option ℤ
  | '-' :: r => if digitsOk r then some (-(digitsVal r : ℤ)) else none
  | s => if digitsOk s then some ((digitsVal s : ℤ)) else none

/-- Decimal digits of a natural number (fuel-driven, fuel always sufficient). -/
def natDigitsF : Nat → Nat → Str
  | 0, _ => []
  | fuel + 1, n =>
    if n < 10 then [Char.ofNat (48 + n)]
    else natDigitsF fuel (n / 10) ++ [Char.ofNat (48 + n % 10)]

/-- Decimal rendering of a natural number. -/
def natStr (n : Nat) : Str := natDigitsF (n + 1) n

/-- Floor of a rational (the denominator of a normalised `Rat` is positive). -/
def qfloor (q : ℚ) : ℤ := Int.fdiv q.num q.den

/-- Rounding a rational to the nearest integer, ties away from the floor.
Models the rounding performed by Python float formatting; every concrete
value used below is far from a tie. -/
def qround (q : ℚ) : ℤ := qfloor (q + 1 / 2)

/-- Python `float(f"{q:.4f}")` / `round(q, 4)`: the value rounded to four
decimal places. -/
def round4 (q : ℚ) : ℚ := (qround (q * 10000) : ℚ) / 10000

/-- Zero-padding of the four-digit fractional part of `"%.4f"`. -/
def pad4 (m : Nat) : Str :=
  if m < 10 then '0' :: '0' :: '0' :: natStr m
  else if m < 100 then '0' :: '0' :: natStr m
  else if m < 1000 then '0' :: natStr m
  else natStr m

/-- Python `f"{q:.4f}"`: fixed-point rendering with four decimal places. -/
def fmt4 (q : ℚ) : Str :=
  let n : ℤ := qround (q * 10000)
  let a : Nat := n.natAbs
  (if n < 0 then ['-'] else []) ++ natStr (a / 10000) ++ ['.'] ++ pad4 (a % 10000)

/-- Python `int(q)` on a float: truncation toward zero. -/
def truncQ (q : ℚ) : ℤ := Int.tdiv q.num q.den

/-- Keys of the spectrum dictionary.  Absolute-intensity serialisation uses
string keys; `convert_to_relative` re-adds ion keys as floats, hence the
numeric constructor. -/
inductive SpecKey where
  | str (s : Str)
  | num (q : ℚ)
deriving DecidableEq

/-- Values of the spectrum dictionary. -/
inductive SpecVal where
  | int (n : ℤ)
  | q (x : ℚ)
  | str (s : Str)
  | qlist (l : List ℚ)
deriving DecidableEq

/-- A Python dict, as an insertion-ordered association list. -/
abbrev SpecDict := List (SpecKey × SpecVal)

/-- Python dict assignment `d[k] = v`: an existing key keeps its position and
has its value replaced; a new key is appended. -/
def dinsert : SpecDict → SpecKey → SpecVal → SpecDict
  | [], k, v => [(k, v)]
  | (k', v') :: t, k, v =>
    if k' = k then (k, v) :: t else (k', v') :: dinsert t k v

/-- Python dict lookup `d[k]` (`none` = `KeyError`). -/
def dlookup : SpecDict → SpecKey → Option SpecVal
  | [], _ => none
  | (k', v') :: t, k => if k' = k then some v' else dlookup t k

/-- The keys of a dict, in order. -/
def keysOf (d : SpecDict) : List SpecKey := d.map Prod.fst

/-- spectrum.py `NON_MASS_KEYS`: keys that do not correspond to individual
ions. -/
def NON_MASS_KEYS : List Str :=
  [str "mass_list", str "retention_time", str "parent", str "scan", str "parent_scan"]

/-- Python `key not in NON_MASS_KEYS`, negated: a float key is never equal to
any of the (string) entries of `NON_MASS_KEYS`. -/
def isNonMassKey : SpecKey → Bool
  | SpecKey.str s => NON_MASS_KEYS.contains s
  | SpecKey.num _ => false

/-- State of the `mz` / `intensity` fields of a `Spectrum`: the raw base64
text ripped from the file, or the decoded list of floats that
`decode_and_decompress` replaces it with in place. -/
inductive Payload where
  | raw (data : Str)
  | decoded (values : List ℚ)
deriving DecidableEq

/-- spectrum.py `Spectrum`.  `parent_mass` is stored by the source as a
string and used by `serialize` only through `float(self.parent_mass)` and a
truthiness test; it is modelled by its parsed numeric value (`none` for the
empty string). -/
structure Spectrum where
  scan : Str
  array_length : Str
  ms_level : Str
  parent_mass : Option ℚ
  parent_scan : Str
  retention_time : Str
  d_type : Str
  compression : Str
  mz : Payload
  intensity : Payload
  serialized : SpecDict
  intensity_threshold : ℚ
  relative : Bool
deriving DecidableEq

/-- The list a payload holds after decoding (`serialize` is only ever applied
to decoded payloads). -/
def getDec : Payload → List ℚ
  | Payload.raw _ => []
  | Payload.decoded l => l

/-- The per-pair filter of `Spectrum.serialize`: MS1 keeps a pair when its
intensity is strictly above the threshold; `self.ms_level > "1"` (a Python
string comparison) keeps a pair when its intensity is strictly above
`(threshold / 100) * 5`. -/
def keepPair (ms_level : Str) (thr i : ℚ) : Bool :=
  if ms_level = str "1" then decide (i > thr)
  else if lexLt (str "1") ms_level then decide (i > thr / 100 * 5)
  else false

/-- One iteration of the `serialize` loop: the accumulator carries the `out`
dict and the `mass_list`. -/
def serializeStep (ms_level : Str) (thr : ℚ) (acc : SpecDict × List ℚ)
    (p : ℚ × ℚ) : SpecDict × List ℚ :=
  if keepPair ms_level thr p.2 then
    (dinsert acc.1 (SpecKey.str (fmt4 p.1)) (SpecVal.int (truncQ p.2)), acc.2 ++ [p.1])
  else acc

/-- Python `float(key)` for a dict key. -/
def keyFloat : SpecKey → Option ℚ
  | SpecKey.str s => parseQ s
  | SpecKey.num q => some q

/-- Python `float(value)` for a dict value (a list cannot be converted). -/
def valFloat : SpecVal → Option ℚ
  | SpecVal.int n => some (n : ℚ)
  | SpecVal.q x => some x
  | SpecVal.str s => parseQ s
  | SpecVal.qlist _ => none

/-- spectrum.py `Spectrum.convert_to_relative`, step 1: the ion list
`[[float(mass), float(intensity)], ...]` over entries whose key is not in
`NON_MASS_KEYS`; `none` models the `ValueError` of `float()` on an
unparseable key or value (never reached from `serialize`). -/
def ionsOf : SpecDict → Option (List (ℚ × ℚ))
  | [] => some []
  | p :: t =>
    if isNonMassKey p.1 then ionsOf t
    else
      match keyFloat p.1, valFloat p.2 with
      | some m, some i => (ionsOf t).map (fun l => (m, i) :: l)
      | _, _ => none

/-- spectrum.py `Spectrum.convert_to_relative`.  The ion list is
stable-sorted by intensity ascending, the base peak is its last element
(`all_ions[-1]` raises `IndexError` — `none` — on an empty list), the
retained `NON_MASS_KEYS` entries are kept, and each ion is re-added with its
FLOAT mass as the key and its relative intensity `round(i / bp * 100, 4)` as
the value; finally `base_peak` is attached as the `[mass, intensity]` pair. -/
def convert_to_relative (d : SpecDict) : Option SpecDict :=
  match ionsOf d with
  | none => none
  | some raw_ions =>
    match (List.insertionSort (fun a b : ℚ × ℚ => a.2 ≤ b.2) raw_ions).getLast? with
    | none => none
    | some base_peak =>
      some (dinsert
        ((List.insertionSort (fun a b : ℚ × ℚ => a.2 ≤ b.2) raw_ions).foldl
          (fun dd ion => dinsert dd (SpecKey.num ion.1)
            (SpecVal.q (round4 (ion.2 / base_peak.2 * 100))))
          (d.filter (fun p => isNonMassKey p.1)))
        (SpecKey.str (str "base_peak"))
        (SpecVal.qlist [base_peak.1, base_peak.2]))

/-- spectrum.py `Spectrum.serialize`: pair `mz` and `intensity` element-wise,
keep pairs through `keepPair`, key kept masses by their `"%.4f"` rendering
with truncated-int intensities, then populate `retention_time`, `scan`,
optional `parent` / `parent_scan`, and `mass_list` (kept masses rounded to
four decimals); in relative mode the dict is finally converted by
`convert_to_relative` (`none` = the unhandled error it can raise). -/
def serialize (s : Spectrum) : Option SpecDict :=
  let pairs := (getDec s.mz).zip (getDec s.intensity)
  let acc := pairs.foldl (serializeStep s.ms_level s.intensity_threshold) ([], [])
  let out := dinsert acc.1 (SpecKey.str (str "retention_time")) (SpecVal.str s.retention_time)
  let out := dinsert out (SpecKey.str (str "scan")) (SpecVal.str s.scan)
  let out :=
    match s.parent_mass with
    | some pm => dinsert out (SpecKey.str (str "parent")) (SpecVal.str (fmt4 pm))
    | none => out
  let out :=
    if s.parent_scan = [] then out
    else dinsert out (SpecKey.str (str "parent_scan")) (SpecVal.str s.parent_scan)
  let out := dinsert out (SpecKey.str (str "mass_list")) (SpecVal.qlist (acc.2.map round4))
  if s.relative then convert_to_relative out else some out

/-- spectrum.py `Spectrum._set_data_type`. -/
def set_data_type (s : Spectrum) : Spectrum :=
  if containsSub s.d_type (str "32") then { s with d_type := str "f" }
  else if containsSub s.d_type (str "64") then { s with d_type := str "d" }
  else s

/-- spectrum.py `Spectrum.decode_and_decompress`, parameterised by `dec`, an
abstract model of base64-decoding, zlib-decompressing and little-endian
unpacking one payload (the claims proved below do not depend on the decoded
values).  `base64.b64decode` raises `TypeError` when a payload is already a
list of floats; a compression string without `"zlib"` raises
`UnsupportedCompressionMethod`. -/
def decode_and_decompress (dec : Str → List ℚ) (s : Spectrum) : Except Str Spectrum :=
  match s.mz, s.intensity with
  | Payload.raw m, Payload.raw i =>
    if containsSub s.compression (str "zlib") then
      Except.ok { s with mz := Payload.decoded (dec m), intensity := Payload.decoded (dec i) }
    else Except.error (str "UnsupportedCompressionMethod")
  | _, _ => Except.error (str "TypeError")

/-- spectrum.py `Spectrum.process`: set the data type, decode both payloads
in place, serialize, store the result in `self.serialized`. -/
def process (dec : Str → List ℚ) (s : Spectrum) : Except Str Spectrum :=
  match decode_and_decompress dec (set_data_type s) with
  | Except.error e => Except.error e
  | Except.ok s1 =>
    match serialize s1 with
    | none => Except.error (str "IndexError")
    | some d => Except.ok { s1 with serialized := d }

/-- The guarded invocation of `process` in `MzmlParser.build_output`
(`if not spec.serialized: spec.process()`): a record whose `serialized` dict
is non-empty (truthy) is left untouched. -/
def guardedProcess (dec : Str → List ℚ) (s : Spectrum) : Except Str Spectrum :=
  if s.serialized = [] then process dec s else Except.ok s

/-- The raw per-spectrum record accumulated by the streaming parser.  Fields
are `Option Str` because `value_finder` returns `None` on a failed match and
the source assigns that result directly; `Spectrum.__init__` initialises the
fields to `""` (`some []`) and `id` does not exist until `start_spectrum`
assigns it.  `retention_time` is stored by the source as
`str(float(value) / rt_converter)`; the float-to-string rendering is not
modelled, the numeric value is. -/
structure SpecRaw where
  id : Option Str
  array_length : Option Str
  ms_level : Option Str
  scan : Option Str
  retention_time : Option ℚ
  d_type : Option Str
  compression : Option Str
  parent_mass : Option Str
  parent_scan : Option Str
  mz : Option Str
  intensity : Option Str
deriving DecidableEq

/-- A fresh `Spectrum()` as created by `MzmlParser.__init__` and after each
`</spectrum>`. -/
def freshSpec : SpecRaw :=
  { id := none, array_length := some [], ms_level := some [], scan := some [],
    retention_time := none, d_type := some [], compression := some [],
    parent_mass := some [], parent_scan := some [], mz := some [],
    intensity := some [] }

/-- Parser state: `in_spectrum` flag, the `curr_spec_bin_type` marker
(initialised to `-1` in `MzmlParser.__init__` and never reset between
spectra), the record under construction, the completed records, and the
`rt_units` configuration. -/
structure PState where
  in_spectrum : Bool
  curr_spec_bin_type : ℤ
  spec : SpecRaw
  spectra : List SpecRaw
  rt_units : Str
deriving DecidableEq

/-- The parser state right after `MzmlParser.__init__` (default retention
time units). -/
def initState : PState :=
  { in_spectrum := false, curr_spec_bin_type := -1, spec := freshSpec,
    spectra := [], rt_units := [] }

/-- `value_finder` for the capture regexes `tag(.+?)close`: the text between
the first occurrence of `opentag` and the next `closetag`; with
`allowEmpty = false` an empty capture is no match (`.+?`). -/
def captureAfter (opentag closetag : Str) (allowEmpty : Bool) (line : Str) : Option Str :=
  match takeUntil opentag line with
  | none => none
  | some (_, post) =>
    match takeUntil closetag post with
    | none => none
    | some (cap, _) => if !allowEmpty && cap = [] then none else some cap

/-- `value_finder` for `value="(.+?)"`. -/
def findValue (line : Str) : Option Str := captureAfter (str "value=\"") (str "\"") false line

/-- `value_finder` for `name="(.+?)"`. -/
def findName (line : Str) : Option Str := captureAfter (str "name=\"") (str "\"") false line

/-- `value_finder` for `scan=([0-9]+)`: the digit run after the first
`scan=`. -/
def findScan (line : Str) : Option Str :=
  match takeUntil (str "scan=") line with
  | none => none
  | some (_, post) =>
    let ds := post.takeWhile isDigitC
    if ds = [] then none else some ds

/-- `value_finder` for `<binary>(.*?)</binary>` (an empty capture matches). -/
def findBinary (line : Str) : Option Str :=
  captureAfter (str "<binary>") (str "</binary>") true line

/-- The last whitespace-delimited token of a segment:
`segment.split(" ")[-1]` (`split` on a nonempty separator never returns an
empty list). -/
def lastTok (seg : Str) : Str := (splitAll (str " ") seg).getLastD []

/-- mzml_parser.py `MzmlParser.update_parent`: below MS level 3 the filter
string is ignored; at level `"3"` the parent mass becomes the last token of
`filter_string.split("@")[1]`, at level `"4"` the last token of
`split("@")[2]`; a missing index raises `IndexError`, and `int()` of an
unset or non-numeric MS level raises. -/
def update_parent (spec : SpecRaw) (filter_string : Str) : Except Str SpecRaw :=
  match spec.ms_level with
  | none => Except.error (str "TypeError")
  | some lvl =>
    match strToInt lvl with
    | none => Except.error (str "ValueError")
    | some n =>
      if n < 3 then Except.ok spec
      else
        let parents := splitAll (str "@") filter_string
        if lvl = str "3" then
          match parents[1]? with
          | some seg => Except.ok { spec with parent_mass := some (lastTok seg) }
          | none => Except.error (str "IndexError")
        else if lvl = str "4" then
          match parents[2]? with
          | some seg => Except.ok { spec with parent_mass := some (lastTok seg) }
          | none => Except.error (str "IndexError")
        else Except.ok spec

/-- mzml_parser.py `MzmlParser.extract_information`: the `if`/`elif` dispatch
on controlled-vocabulary markers.  A `<binary>` line reached while
`curr_spec_bin_type` is neither `0` nor `1` raises
`Exception("Error setting binary type")`. -/
def extract_information (st : PState) (line : Str) : Except Str PState :=
  if containsSub line (str "MS:1000511") then
    Except.ok { st with spec := { st.spec with ms_level := findValue line } }
  else if containsSub line (str "MS:1000796") then
    Except.ok { st with spec := { st.spec with scan := findScan line } }
  else if containsSub line (str "MS:1000016") then
    match findValue line with
    | none => Except.error (str "TypeError")
    | some v =>
      match parseQ v with
      | none => Except.error (str "ValueError")
      | some q =>
        let conv : ℚ := if st.rt_units = str "sec" then 60 else 1
        Except.ok { st with spec := { st.spec with retention_time := some (q / conv) } }
  else if containsSub line (str "MS:1000521") || containsSub line (str "MS:1000523") then
    Except.ok { st with spec := { st.spec with d_type := findName line } }
  else if containsSub line (str "MS:1000574") then
    Except.ok { st with spec := { st.spec with compression := findName line } }
  else if containsSub line (str "MS:1000744") then
    Except.ok { st with spec := { st.spec with parent_mass := findValue line } }
  else if containsSub line (str "<precursor spectrumRef") then
    Except.ok { st with spec := { st.spec with parent_scan := findScan line } }
  else if containsSub line (str "MS:1000512") then
    match findValue line with
    | none => Except.error (str "TypeError")
    | some suggested =>
      match update_parent st.spec suggested with
      | Except.error e => Except.error e
      | Except.ok spec1 => Except.ok { st with spec := spec1 }
  else if containsSub line (str "MS:1000514") then
    Except.ok { st with curr_spec_bin_type := 0 }
  else if containsSub line (str "MS:1000515") then
    Except.ok { st with curr_spec_bin_type := 1 }
  else if containsSub line (str "<binary>") then
    if st.curr_spec_bin_type = 0 then
      Except.ok { st with spec := { st.spec with mz := findBinary line } }
    else if st.curr_spec_bin_type = 1 then
      Except.ok { st with spec := { st.spec with intensity := findBinary line } }
    else Except.error (str "Error setting binary type")
  else Except.ok st

/-- mzml_parser.py `banned_phrases`. -/
def banned_phrases (line : Str) : Bool := containsSub line (str "<userParam")

/-- mzml_parser.py `MzmlParser.start_spectrum`: outside a spectrum, a line
with a spectrum-index attribute starts a fresh block and fills `id` and
`array_length` from the same line. -/
def start_spectrum (st : PState) (line : Str) : PState :=
  match captureAfter (str "index=\"") (str "\"") false line with
  | none => st
  | some sid =>
    { st with
      in_spectrum := true
      spec := { st.spec with
        id := some sid
        array_length := captureAfter (str "defaultArrayLength=\"") (str "\"") false line } }

/-- mzml_parser.py `MzmlParser.process_line`.  Note that the `</spectrum>`
branch resets `spec` and `in_spectrum` but NOT `curr_spec_bin_type`. -/
def process_line (st : PState) (line : Str) : Except Str PState :=
  if st.in_spectrum = false then Except.ok (start_spectrum st line)
  else if containsSub line (str "</spectrum>") then
    Except.ok { st with
      spectra := st.spectra ++ [st.spec]
      in_spectrum := false
      spec := freshSpec }
  else if banned_phrases line then Except.ok st
  else extract_information st line

/-- Folding `process_line` over the lines of the file (the loop of
`MzmlParser.parse_file`), stopping at the first uncaught exception. -/
def run_lines (st : PState) : List Str → Except Str PState
  | [] => Except.ok st
  | l :: ls =>
    match process_line st l with
    | Except.error e => Except.error e
    | Except.ok st1 => run_lines st1 ls

/-- A completed, processed spectrum as seen by `MzmlParser.build_output`:
the `retention_time` attribute used as the sort key (a STRING in the
source), and the `serialized` dict (the records reaching `build_output`
have been processed, so the re-processing guard — modelled separately by
`guardedProcess` — does not fire). -/
structure ProcSpec where
  retention_time : Str
  serialized : SpecDict
deriving DecidableEq

/-- The sort relation of `sorted(self.ms1, key=lambda x: x.retention_time)`:
Python compares the retention-time STRINGS lexicographically. -/
def rtLe (a b : ProcSpec) : Prop := lexLe a.retention_time b.retention_time = true

instance : DecidableRel rtLe := fun _ _ => instDecidableEqBool _ _

/-- Python `sorted` is a stable ascending sort; a stable sort's output is
unique, so insertion sort with the non-strict key order reproduces it. -/
def sortedByRt (specs : List ProcSpec) : List ProcSpec := List.insertionSort rtLe specs

/-- The `spec.serialized["mass_list"]` value read by `build_output`
(`[]` for a missing or non-list entry; the records reaching `build_output`
always carry a list there). -/
def massListOf (d : SpecDict) : List ℚ :=
  match dlookup d (SpecKey.str (str "mass_list")) with
  | some (SpecVal.qlist l) => l
  | _ => []

/-- One level of `MzmlParser.build_output`: sort the bucket by the
retention-time string, then `for pos, spec in enumerate(...)` assigns the
key `spectrum_{pos+1}` — `pos` being the position in the FULL sorted bucket
— to every record whose `mass_list` is truthy (non-empty). -/
def build_level (specs : List ProcSpec) : List (Str × SpecDict) :=
  ((sortedByRt specs).enum).filterMap (fun p =>
    if massListOf p.2.serialized = [] then none
    else some (str "spectrum_" ++ natStr (p.1 + 1), p.2.serialized))

/-- mzml_parser.py `MzmlParser.build_output`: the four per-level outputs. -/
def build_output (ms1 ms2 ms3 ms4 : List ProcSpec) : List (Str × List (Str × SpecDict)) :=
  [(str "ms1", build_level ms1), (str "ms2", build_level ms2),
   (str "ms3", build_level ms3), (str "ms4", build_level ms4)]

/-- The numeric retention time `float(spec["retention_time"])` of a ripper
spectrum dict (`0` for a missing or unparseable entry, never hit from
well-formed ripper data). -/
def rtOfDict (d : SpecDict) : ℚ :=
  match dlookup d (SpecKey.str (str "retention_time")) with
  | some (SpecVal.str s) => (parseQ s).getD 0
  | _ => 0

/-- chromatograms.py `generate_EIC`, retention-time selection stage (lines
44–54).  After the first filter `ms_data` has been rebound to a LIST; the
`max_rt` branch (entered when `max_rt` is truthy, i.e. given and non-zero)
then evaluates `ms_data.values()` on that list, which raises
`AttributeError`. -/
def eic_rt_filter (ms1 : List (Str × SpecDict)) (min_rt : ℚ) (max_rt : Option ℚ) :
    Except Str (List SpecDict) :=
  let filtered := (ms1.map Prod.snd).filter (fun sp => decide (rtOfDict sp ≥ min_rt))
  match max_rt with
  | none => Except.ok filtered
  | some m =>
    if m = 0 then Except.ok filtered
    else Except.error (str "AttributeError")

/-- chromatograms.py `generate_EIC`, error-tolerance conversion (lines
56–63): `"ppm"` converts to absolute units as `target_mass / 1e6 * tol`,
`"u"` is used as-is, anything else raises. -/
def convert_tolerance (error_units : Str) (target_mass error_tolerance : ℚ) : Except Str ℚ :=
  if error_units = str "ppm" then Except.ok (target_mass / 1000000 * error_tolerance)
  else if error_units ≠ str "u" then Except.error (str "InvalidUnits")
  else Except.ok error_tolerance

/-- chromatograms.py `generate_EIC`, line 66: the final matching window. -/
def mass_range (target_mass error_tolerance : ℚ) : ℚ × ℚ :=
  (target_mass - error_tolerance, target_mass + error_tolerance)

/-- chromatograms.py `match_mass`: candidates inside the closed window. -/
def match_mass (candidates : List ℚ) (range : ℚ × ℚ) : List ℚ :=
  candidates.filter (fun mass => decide (mass ≥ range.1) && decide (mass ≤ range.2))

/-- Equality of `Except` results is decidable componentwise. -/
instance {α β : Type} [DecidableEq α] [DecidableEq β] : DecidableEq (Except α β) :=
  fun a b =>
    match a, b with
    | Except.ok x, Except.ok y =>
      if h : x = y then isTrue (by rw [h]) else isFalse (fun hh => h (Except.ok.inj hh))
    | Except.error x, Except.error y =>
      if h : x = y then isTrue (by rw [h]) else isFalse (fun hh => h (Except.error.inj hh))
    | Except.ok _, Except.error _ => isFalse (fun hh => Except.noConfusion hh)
    | Except.error _, Except.ok _ => isFalse (fun hh => Except.noConfusion hh)

/-- Whether a dict key is a string key. -/
def isStrKey : SpecKey → Bool
  | SpecKey.str _ => true
  | SpecKey.num _ => false

/-- The number of mass-key entries of a spectrum dict: entries whose key is
outside the fixed non-mass set `NON_MASS_KEYS` (the fixed key set of the
absolute-intensity output). -/
def massCount (d : SpecDict) : Nat := d.countP (fun p => !isNonMassKey p.1)

/-- The number of mass-key entries of a relative-intensity spectrum dict:
the fixed key set additionally contains `base_peak`. -/
def massCountRel (d : SpecDict) : Nat :=
  d.countP (fun p => !isNonMassKey p.1 && !decide (p.1 = SpecKey.str (str "base_peak")))

/-- The pairs kept by the `serialize` threshold filter. -/
def keptPairs (s : Spectrum) : List (ℚ × ℚ) :=
  ((getDec s.mz).zip (getDec s.intensity)).filter
    (fun p => keepPair s.ms_level s.intensity_threshold p.2)

/-- The retention-time string stored in a spectrum dict (`[]` when absent). -/
def rtStrOfDict (d : SpecDict) : Str :=
  match dlookup d (SpecKey.str (str "retention_time")) with
  | some (SpecVal.str s) => s
  | _ => []

/-- A minimal well-formed serialized dict with the given retention-time
string and a one-element mass list. -/
def mkDict (rt : Str) : SpecDict :=
  [(SpecKey.str (str "retention_time"), SpecVal.str rt),
   (SpecKey.str (str "mass_list"), SpecVal.qlist [100])]

/-- A processed spectrum with the given retention-time string. -/
def mkPS (rt : Str) : ProcSpec := { retention_time := rt, serialized := mkDict rt }

/-- A processed spectrum whose `mass_list` is empty after filtering. -/
def emptyPS : ProcSpec :=
  { retention_time := str "1.0",
    serialized := [(SpecKey.str (str "retention_time"), SpecVal.str (str "1.0")),
                   (SpecKey.str (str "mass_list"), SpecVal.qlist [])] }

/-- Input lines of the C3 counterexample: a first spectrum whose blocks set
both array-type markers, then a second spectrum whose binary blob comes
before any marker of its own. -/
def exLinesC3 : List Str :=
  [str "<spectrum index=\"1\" defaultArrayLength=\"2\">",
   str "<cvParam accession=\"MS:1000514\" name=\"m/z array\"/>",
   str "<binary>QUFB</binary>",
   str "<cvParam accession=\"MS:1000515\" name=\"intensity array\"/>",
   str "<binary>QkJC</binary>",
   str "</spectrum>",
   str "<spectrum index=\"2\" defaultArrayLength=\"2\">",
   str "<binary>Q0ND</binary>"]

/-- A spectrum whose two decoded masses collide at four decimal places
(`100.00001` and `100.00004` both format to `"100.0000"`), with both
intensities above the MS1 threshold. -/
def exSpec9 (rel : Bool) : Spectrum :=
  { scan := str "1", array_length := str "2", ms_level := str "1",
    parent_mass := none, parent_scan := [], retention_time := str "6.6",
    d_type := str "f", compression := str "zlib",
    mz := Payload.decoded [100 + 1 / 100000, 100 + 4 / 100000],
    intensity := Payload.decoded [2000, 3000],
    serialized := [], intensity_threshold := 1000, relative := rel }

/-- The absolute-mode serialisation of `exSpec9`. -/
def exDict9abs : SpecDict :=
  [(SpecKey.str (str "100.0000"), SpecVal.int 3000),
   (SpecKey.str (str "retention_time"), SpecVal.str (str "6.6")),
   (SpecKey.str (str "scan"), SpecVal.str (str "1")),
   (SpecKey.str (str "mass_list"), SpecVal.qlist [100, 100])]

/-- The relative-mode serialisation of `exSpec9`: the single surviving ion
is re-added under the FLOAT key `100`. -/
def exDict9rel : SpecDict :=
  [(SpecKey.str (str "retention_time"), SpecVal.str (str "6.6")),
   (SpecKey.str (str "scan"), SpecVal.str (str "1")),
   (SpecKey.str (str "mass_list"), SpecVal.qlist [100, 100]),
   (SpecKey.num 100, SpecVal.q 100),
   (SpecKey.str (str "base_peak"), SpecVal.qlist [100, 3000])]

/-- An absolute-mode spectrum whose kept masses stay distinct at four
decimal places. -/
def exSpec9d : Spectrum :=
  { scan := str "4", array_length := str "2", ms_level := str "1",
    parent_mass := none, parent_scan := [], retention_time := str "7.5",
    d_type := str "f", compression := str "zlib",
    mz := Payload.decoded [100, 200],
    intensity := Payload.decoded [2000, 3000],
    serialized := [], intensity_threshold := 1000, relative := false }

/-- The serialisation of `exSpec9d`. -/
def exDict9d : SpecDict :=
  [(SpecKey.str (str "100.0000"), SpecVal.int 2000),
   (SpecKey.str (str "200.0000"), SpecVal.int 3000),
   (SpecKey.str (str "retention_time"), SpecVal.str (str "7.5")),
   (SpecKey.str (str "scan"), SpecVal.str (str "4")),
   (SpecKey.str (str "mass_list"), SpecVal.qlist [100, 200])]

/-- A relative-mode spectrum none of whose peaks passes the MS1 threshold. -/
def exSpec10 : Spectrum :=
  { scan := str "2", array_length := str "2", ms_level := str "1",
    parent_mass := none, parent_scan := [], retention_time := str "1.5",
    d_type := str "f", compression := str "zlib",
    mz := Payload.decoded [100, 200],
    intensity := Payload.decoded [5, 6],
    serialized := [], intensity_threshold := 1000, relative := true }

/-- A concrete stand-in for the base64+zlib+unpack decoder. -/
def exDec : Str → List ℚ := fun _ => [100, 200]

/-- A raw (never processed) spectrum used to exercise `process`. -/
def exC5raw : Spectrum :=
  { scan := str "3", array_length := str "2", ms_level := str "1",
    parent_mass := none, parent_scan := [], retention_time := str "2.5",
    d_type := str "32-bit float", compression := str "zlib compression",
    mz := Payload.raw (str "QUFB"), intensity := Payload.raw (str "QkJC"),
    serialized := [], intensity_threshold := 10, relative := false }

/-- The record `process` leaves behind for `exC5raw` (defined by evaluation;
`process` succeeds on `exC5raw`). -/
def exC5proc : Spectrum :=
  match process exDec exC5raw with
  | Except.ok r => r
  | Except.error _ => exC5raw

/-- A one-spectrum `ms1` level dict for the EIC retention-time filter. -/
def exC6 : List (Str × SpecDict) := [(str "spectrum_1", mkDict (str "1.0"))]

/-- A raw spectrum record whose MS level is already set to `"3"`. -/
def exC8spec : SpecRaw := { freshSpec with ms_level := some (str "3") }

/-- A raw spectrum record whose MS level is already set to `"4"`. -/
def exC8spec4 : SpecRaw := { freshSpec with ms_level := some (str "4") }

/-- The parser state reached on the C3 counterexample input (defined by
evaluation; the run succeeds). -/
def exC3result : PState :=
  match run_lines initState exLinesC3 with
  | Except.ok st => st
  | Except.error _ => initState

/-- An in-spectrum state whose binary type has been set to m/z. -/
def exC3mid : PState :=
  { initState with in_spectrum := true, curr_spec_bin_type := 0 }

/-- The state `process_line` reaches from `exC3mid` on a binary line
(defined by evaluation; the call succeeds). -/
def exC3mid' : PState :=
  match process_line exC3mid (str "<binary>QQ==</binary>") with
  | Except.ok st => st
  | Except.error _ => exC3mid

theorem dinsert_ne_nil (d : SpecDict) (k : SpecKey) (v : SpecVal) : dinsert d k v ≠ [] := by
  cases d with
  | nil => simp [dinsert]
  | cons p t =>
    unfold dinsert
    split <;> simp

theorem dlookup_dinsert_self (d : SpecDict) (k : SpecKey) (v : SpecVal) :
    dlookup (dinsert d k v) k = some v := by
  induction d with
  | nil => simp [dinsert, dlookup]
  | cons p t ih =>
    unfold dinsert
    by_cases h : p.1 = k
    · simp [h, dlookup]
    · simp only [h, if_false]
      unfold dlookup
      simp [h, ih]

theorem mem_dinsert {d : SpecDict} {k : SpecKey} {v : SpecVal} {p : SpecKey × SpecVal}
    (hp : p ∈ dinsert d k v) : p ∈ d ∨ p.1 = k := by
  induction d with
  | nil => simp [dinsert] at hp; simp [hp]
  | cons q t ih =>
    unfold dinsert at hp
    by_cases h : q.1 = k
    · simp only [h, if_true] at hp
      rcases List.mem_cons.1 hp with h1 | h1
      · right; rw [h1]
      · left; exact List.mem_cons_of_mem _ h1
    · simp only [h, if_false] at hp
      rcases List.mem_cons.1 hp with h1 | h1
      · left; exact h1 ▸ List.mem_cons_self _ _
      · rcases ih h1 with h2 | h2
        · left; exact List.mem_cons_of_mem _ h2
        · right; exact h2

theorem serialize_fold (lvl : Str) (thr : ℚ) :
    ∀ (ps : List (ℚ × ℚ)) (acc : SpecDict × List ℚ),
      ps.foldl (serializeStep lvl thr) acc =
        ((ps.filter (fun p => keepPair lvl thr p.2)).foldl
            (fun d p => dinsert d (SpecKey.str (fmt4 p.1)) (SpecVal.int (truncQ p.2))) acc.1,
         acc.2 ++ (ps.filter (fun p => keepPair lvl thr p.2)).map Prod.fst)
  | [], acc => by simp
  | p :: ps, acc => by
    by_cases h : keepPair lvl thr p.2
    · simp only [List.foldl_cons, List.filter_cons, h, if_pos]
      rw [serialize_fold lvl thr ps]
      simp [serializeStep, h]
    · simp only [List.foldl_cons, List.filter_cons, h]
      rw [serialize_fold lvl thr ps]
      simp [serializeStep, h]

theorem serialize_abs_massList {s : Spectrum} {d : SpecDict}
    (hrel : s.relative = false) (h : serialize s = some d) :
    massListOf d = (keptPairs s).map (fun p => round4 p.1) := by
  unfold serialize at h
  rw [hrel, if_neg Bool.false_ne_true, serialize_fold] at h
  simp only [Option.some.injEq] at h
  subst h
  unfold massListOf
  rw [dlookup_dinsert_self]
  simp [keptPairs, List.map_map]

theorem convert_ne_nil {x : SpecDict} {d : SpecDict}
    (h : convert_to_relative x = some d) : d ≠ [] := by
  unfold convert_to_relative at h
  split at h
  · exact absurd h (by simp)
  · split at h
    · exact absurd h (by simp)
    · simp only [Option.some.injEq] at h
      exact h ▸ dinsert_ne_nil _ _ _

theorem serialize_ne_nil {s : Spectrum} {d : SpecDict}
    (h : serialize s = some d) : d ≠ [] := by
  unfold serialize at h
  cases hr : s.relative with
  | true =>
    rw [hr, if_pos rfl] at h
    exact convert_ne_nil h
  | false =>
    rw [hr, if_neg Bool.false_ne_true] at h
    simp only [Option.some.injEq] at h
    exact h ▸ dinsert_ne_nil _ _ _

theorem ionsOf_nonmass :
    ∀ {d : SpecDict}, (∀ p ∈ d, isNonMassKey p.1 = true) → ionsOf d = some []
  | [], _ => rfl
  | p :: t, h => by
    have hp : isNonMassKey p.1 = true := h p (List.mem_cons_self _ _)
    unfold ionsOf
    simp only [hp, if_true]
    exact ionsOf_nonmass (fun q hq => h q (List.mem_cons_of_mem _ hq))

theorem dinsert_all_pred {P : SpecKey → Prop} :
    ∀ {d : SpecDict} {k : SpecKey} {v : SpecVal},
      (∀ p ∈ d, P p.1) → P k → ∀ p ∈ dinsert d k v, P p.1 := by
  intro d k v hd hk p hp
  rcases mem_dinsert hp with h | h
  · exact hd p h
  · exact h ▸ hk

theorem convert_nonmass_none {d : SpecDict}
    (h : ∀ p ∈ d, isNonMassKey p.1 = true) : convert_to_relative d = none := by
  unfold convert_to_relative
  rw [ionsOf_nonmass h]
  rfl

/-- C4: the `serialize` peak filter keeps an MS1 pair exactly when its
intensity is strictly greater than the threshold, keeps an MS2/MS3/MS4 pair
exactly when its intensity is strictly greater than `threshold * 0.05`,
excludes pairs exactly at either cutoff, and the `mass_list` of an
absolute-mode serialisation consists of precisely the kept masses (rounded
to four decimals). -/
theorem C4_threshold_filter :
    (∀ thr i : ℚ, keepPair (str "1") thr i = decide (i > thr)) ∧
    (∀ lvl, lvl = str "2" ∨ lvl = str "3" ∨ lvl = str "4" →
      ∀ thr i : ℚ, (keepPair lvl thr i = true ↔ i > thr * (5 / 100))) ∧
    (∀ thr : ℚ, keepPair (str "1") thr thr = false) ∧
    (∀ lvl, lvl = str "2" ∨ lvl = str "3" ∨ lvl = str "4" →
      ∀ thr : ℚ, keepPair lvl thr (thr * (5 / 100)) = false) ∧
    (∀ (s : Spectrum) (d : SpecDict), s.relative = false → serialize s = some d →
      massListOf d = (keptPairs s).map (fun p => round4 p.1)) := by
  have base : ∀ lvl, lvl = str "2" ∨ lvl = str "3" ∨ lvl = str "4" →
      ∀ thr i : ℚ, (keepPair lvl thr i = true ↔ i > thr * (5 / 100)) := by
    intro lvl hl thr i
    have harith : thr / 100 * 5 = thr * (5 / 100) := by ring
    rcases hl with rfl | rfl | rfl <;>
      · unfold keepPair
        rw [if_neg (by decide), if_pos (by decide), decide_eq_true_iff, harith]
  refine ⟨?_, base, ?_, ?_, ?_⟩
  · intro thr i
    unfold keepPair
    rw [if_pos rfl]
  · intro thr
    unfold keepPair
    rw [if_pos rfl]
    simp
  · intro lvl hl thr
    rcases hb : keepPair lvl thr (thr * (5 / 100)) with _ | _
    · rfl
    · exact absurd ((base lvl hl thr _).1 hb) (lt_irrefl _)
  · intro s d hrel h
    exact serialize_abs_massList hrel h

/-- C4 witness: concrete boundary checks at threshold 1000. -/
theorem C4_witness :
    keepPair (str "1") 1000 1000 = false ∧
    keepPair (str "1") 1000 1001 = true ∧
    keepPair (str "2") 1000 50 = false ∧
    keepPair (str "2") 1000 51 = true := by
  refine ⟨C4_threshold_filter.2.2.1 1000, ?_, ?_, ?_⟩
  · rw [C4_threshold_filter.1]; decide
  · have h50 : (50 : ℚ) = 1000 * (5 / 100) := by norm_num
    rw [h50]
    exact C4_threshold_filter.2.2.2.1 (str "2") (Or.inl rfl) 1000
  · have := (C4_threshold_filter.2.1 (str "2") (Or.inl rfl) 1000 51).2 (by norm_num)
    exact this

/-- C5: re-invoking decode/process through the already-serialized guard of
`build_output` on a record that a successful `process` left behind is a
no-op: the guarded second invocation returns the record unchanged (all
payload fields and the serialized output included) and does not fail. -/
theorem C5_process_idempotent :
    ∀ (dec : Str → List ℚ) (s s' : Spectrum),
      process dec s = Except.ok s' → guardedProcess dec s' = Except.ok s' := by
  intro dec s s' h
  unfold process at h
  split at h
  · exact absurd h (by simp)
  · split at h
    · exact absurd h (by simp)
    · rename_i s1 _ d hser
      simp only [Except.ok.injEq] at h
      have hne : d ≠ [] := serialize_ne_nil hser
      unfold guardedProcess
      rw [if_neg (by rw [← h]; exact hne)]

/-- C5 witness: the guarded re-invocation on the concrete processed record
is the identity. -/
theorem C5_witness : guardedProcess exDec exC5proc = Except.ok exC5proc :=
  C5_process_idempotent exDec exC5raw exC5proc (by decide)

/-- C6: supplying a (non-zero) `max_rt` bound to the EIC retention-time
selection does NOT merely narrow the selection — the source rebinds
`ms_data` to a list in the first filter and then calls `.values()` on that
list, so the run fails with `AttributeError`; without `max_rt` the filter
keeps exactly the spectra with `retention_time >= min_rt`. -/
theorem C6_max_rt_failure :
    eic_rt_filter exC6 0 (some 5) = Except.error (str "AttributeError") ∧
    eic_rt_filter exC6 0 none = Except.ok [mkDict (str "1.0")] ∧
    eic_rt_filter exC6 2 none = Except.ok [] := by decide

/-- C7: the EIC tolerance conversion maps `"ppm"` to
`target_mass / 1e6 * tol`, uses `"u"` unchanged, rejects every other unit
string; the matching window is the closed interval
`[target - abs, target + abs]`; and 10 ppm at mass 200 selects exactly the
candidates that 0.002 u selects. -/
theorem C7_eic_tolerance :
    (∀ t tol : ℚ, convert_tolerance (str "ppm") t tol = Except.ok (t / 1000000 * tol)) ∧
    (∀ t tol : ℚ, convert_tolerance (str "u") t tol = Except.ok tol) ∧
    (∀ u : Str, u ≠ str "ppm" → u ≠ str "u" → ∀ t tol : ℚ,
        convert_tolerance u t tol = Except.error (str "InvalidUnits")) ∧
    (∀ t a m : ℚ, ∀ cands : List ℚ,
        m ∈ match_mass cands (mass_range t a) ↔ m ∈ cands ∧ t - a ≤ m ∧ m ≤ t + a) ∧
    (∀ cands : List ℚ,
        match_mass cands (mass_range 200 (200 / 1000000 * 10)) =
          match_mass cands (mass_range 200 (2 / 1000))) := by
  refine ⟨?_, ?_, ?_, ?_, ?_⟩
  · intro t tol
    unfold convert_tolerance
    rw [if_pos rfl]
  · intro t tol
    unfold convert_tolerance
    rw [if_neg (by decide)]
    rw [if_neg (by simp)]
  · intro u h1 h2 t tol
    unfold convert_tolerance
    rw [if_neg h1]
    rw [if_pos h2]
  · intro t a m cands
    unfold match_mass mass_range
    simp only [List.mem_filter, Bool.and_eq_true, decide_eq_true_iff]
  · intro cands
    have : (200 : ℚ) / 1000000 * 10 = 2 / 1000 := by norm_num
    rw [this]

/-- C7 witness: concrete instances of each conjunct. -/
theorem C7_witness :
    convert_tolerance (str "ppm") 200 10 = Except.ok (200 / 1000000 * 10) ∧
    convert_tolerance (str "u") 200 (2 / 1000) = Except.ok (2 / 1000) ∧
    convert_tolerance (str "Da") 200 10 = Except.error (str "InvalidUnits") ∧
    match_mass [(1999 : ℚ) / 10, 200, 2003 / 10]
        (mass_range 200 (200 / 1000000 * 10)) =
      match_mass [(1999 : ℚ) / 10, 200, 2003 / 10] (mass_range 200 (2 / 1000)) :=
  ⟨C7_eic_tolerance.1 200 10, C7_eic_tolerance.2.1 200 (2 / 1000),
   C7_eic_tolerance.2.2.1 (str "Da") (by decide) (by decide) 200 10,
   C7_eic_tolerance.2.2.2.2 [(1999 : ℚ) / 10, 200, 2003 / 10]⟩

/-- C10: serializing a relative-mode spectrum in which no decoded pair
passes the intensity threshold fails (the base-peak selection
`all_ions[-1]` on the empty ion list) instead of producing an empty
record. -/
theorem C10_empty_relative_failure :
    ∀ s : Spectrum, s.relative = true →
      (∀ p ∈ (getDec s.mz).zip (getDec s.intensity),
        keepPair s.ms_level s.intensity_threshold p.2 = false) →
      serialize s = none := by
  intro s hrel hnone
  simp only [serialize]
  have hfil : ((getDec s.mz).zip (getDec s.intensity)).filter
      (fun p => keepPair s.ms_level s.intensity_threshold p.2) = [] := by
    rw [List.filter_eq_nil_iff]
    intro p hp
    simp [hnone p hp]
  rw [serialize_fold, hfil, hrel, if_pos rfl]
  apply convert_nonmass_none
  apply dinsert_all_pred (P := fun k => isNonMassKey k = true)
  · split
    · split
      · apply dinsert_all_pred (P := fun k => isNonMassKey k = true)
        · apply dinsert_all_pred (P := fun k => isNonMassKey k = true)
          · apply dinsert_all_pred (P := fun k => isNonMassKey k = true)
            · intro p hp
              exact absurd hp (List.not_mem_nil p)
            · decide
          · decide
        · decide
      · apply dinsert_all_pred (P := fun k => isNonMassKey k = true)
        · apply dinsert_all_pred (P := fun k => isNonMassKey k = true)
          · intro p hp
            exact absurd hp (List.not_mem_nil p)
          · decide
        · decide
    · apply dinsert_all_pred (P := fun k => isNonMassKey k = true)
      · split
        · apply dinsert_all_pred (P := fun k => isNonMassKey k = true)
          · apply dinsert_all_pred (P := fun k => isNonMassKey k = true)
            · apply dinsert_all_pred (P := fun k => isNonMassKey k = true)
              · intro p hp
                exact absurd hp (List.not_mem_nil p)
              · decide
            · decide
          · decide
        · apply dinsert_all_pred (P := fun k => isNonMassKey k = true)
          · apply dinsert_all_pred (P := fun k => isNonMassKey k = true)
            · intro p hp
              exact absurd hp (List.not_mem_nil p)
            · decide
          · decide
      · decide
  · decide

/-- C10 witness: the concrete all-below-threshold relative spectrum fails
to serialize. -/
theorem C10_witness : serialize exSpec10 = none :=
  C10_empty_relative_failure exSpec10 (by decide) (by decide)

/-- C8: with the MS level already set, `update_parent` ignores the
suggested-precursor filter string at levels 1 and 2; at level 3 it sets
`parent_mass` to the last whitespace-delimited token of the `@`-delimited
segment between the first and second `@` (`split("@")[1]`), and at level 4
to the last token of the segment following the second `@`
(`split("@")[2]`); the hypotheses require at least two `@` so that both
segments exist. -/
theorem C8_update_parent :
    (∀ (spec : SpecRaw) (fs : Str), spec.ms_level = some (str "1") →
        update_parent spec fs = Except.ok spec) ∧
    (∀ (spec : SpecRaw) (fs : Str), spec.ms_level = some (str "2") →
        update_parent spec fs = Except.ok spec) ∧
    (∀ (spec : SpecRaw) (fs : Str), spec.ms_level = some (str "3") →
        3 ≤ (splitAll (str "@") fs).length →
        update_parent spec fs =
          Except.ok { spec with
            parent_mass := some (lastTok (((splitAll (str "@") fs)[1]?).getD [])) }) ∧
    (∀ (spec : SpecRaw) (fs : Str), spec.ms_level = some (str "4") →
        3 ≤ (splitAll (str "@") fs).length →
        update_parent spec fs =
          Except.ok { spec with
            parent_mass := some (lastTok (((splitAll (str "@") fs)[2]?).getD [])) }) := by
  refine ⟨?_, ?_, ?_, ?_⟩
  · intro spec fs h
    have h1 : strToInt (str "1") = some 1 := by decide
    simp only [update_parent, h, h1]
    rw [if_pos (by decide)]
  · intro spec fs h
    have h1 : strToInt (str "2") = some 2 := by decide
    simp only [update_parent, h, h1]
    rw [if_pos (by decide)]
  · intro spec fs h hlen
    have h1 : strToInt (str "3") = some 3 := by decide
    simp only [update_parent, h, h1]
    rw [if_pos trivial]
    have hidx : 1 < (splitAll (str "@") fs).length := by omega
    rw [List.getElem?_eq_getElem hidx]
    rfl
  · intro spec fs h hlen
    have h1 : strToInt (str "4") = some 4 := by decide
    simp only [update_parent, h, h1]
    rw [if_pos trivial]
    have hidx : 2 < (splitAll (str "@") fs).length := by omega
    rw [List.getElem?_eq_getElem hidx]
    rfl

/-- C8 witness: a Thermo-style MS3 filter string yields the mass token after
the first `@`, and the same string at MS4 the token after the second. -/
theorem C8_witness :
    update_parent exC8spec (str "ms3 619.29@cid35.00 467.92@hcd30.00") =
      Except.ok { exC8spec with parent_mass := some (str "467.92") } ∧
    update_parent exC8spec4 (str "ms3 619.29@cid35.00 467.92@hcd30.00") =
      Except.ok { exC8spec4 with parent_mass := some (str "hcd30.00") } := by
  constructor
  · have := C8_update_parent.2.2.1 exC8spec
      (str "ms3 619.29@cid35.00 467.92@hcd30.00") (by decide) (by decide)
    rw [this]
    decide
  · have := C8_update_parent.2.2.2 exC8spec4
      (str "ms3 619.29@cid35.00 467.92@hcd30.00") (by decide) (by decide)
    rw [this]
    decide

/-- C3 counterexample: a file whose first spectrum establishes both
array-type markers and whose second spectrum opens with a binary blob
before any marker of its own parses WITHOUT error — the stale
`curr_spec_bin_type = 1` from the previous spectrum silently routes the
blob into the intensity field — contradicting the claim that such a blob
is a fatal parse error for every spectrum. -/
theorem C3_counterexample :
    run_lines initState exLinesC3 = Except.ok exC3result ∧
    exC3result.spec.intensity = some (str "Q0ND") ∧
    exC3result.curr_spec_bin_type = 1 ∧
    exC3result.spectra.length = 1 := by decide

/-- C3 amended: a binary blob line is a fatal `Error setting binary type`
exactly when NO array-type marker has been seen since the parser was
constructed (`curr_spec_bin_type` still `-1`, or any value other than 0/1);
the flag is never reset between spectra — `process_line` leaves it
unchanged on every line that carries neither the m/z marker `MS:1000514`
nor the intensity marker `MS:1000515`. -/
theorem C3_amended :
    (∀ (st : PState) (line : Str),
      st.in_spectrum = true →
      st.curr_spec_bin_type ≠ 0 → st.curr_spec_bin_type ≠ 1 →
      containsSub line (str "</spectrum>") = false →
      banned_phrases line = false →
      containsSub line (str "MS:1000511") = false →
      containsSub line (str "MS:1000796") = false →
      containsSub line (str "MS:1000016") = false →
      containsSub line (str "MS:1000521") = false →
      containsSub line (str "MS:1000523") = false →
      containsSub line (str "MS:1000574") = false →
      containsSub line (str "MS:1000744") = false →
      containsSub line (str "<precursor spectrumRef") = false →
      containsSub line (str "MS:1000512") = false →
      containsSub line (str "MS:1000514") = false →
      containsSub line (str "MS:1000515") = false →
      containsSub line (str "<binary>") = true →
      process_line st line = Except.error (str "Error setting binary type")) ∧
    (∀ (st : PState) (line : Str) (st' : PState),
      process_line st line = Except.ok st' →
      containsSub line (str "MS:1000514") = false →
      containsSub line (str "MS:1000515") = false →
      st'.curr_spec_bin_type = st.curr_spec_bin_type) := by
  constructor
  · intro st line hin hc0 hc1 hend hban h511 h796 h016 h521 h523 h574 h744 hpre h512 h514 h515 hbin
    unfold process_line
    rw [hin]
    rw [if_neg (by simp)]
    rw [if_neg (by simp [hend])]
    rw [if_neg (by simp [hban])]
    unfold extract_information
    rw [if_neg (by simp [h511]), if_neg (by simp [h796]), if_neg (by simp [h016]),
      if_neg (by simp [h521, h523]), if_neg (by simp [h574]), if_neg (by simp [h744]),
      if_neg (by simp [hpre]), if_neg (by simp [h512]), if_neg (by simp [h514]),
      if_neg (by simp [h515]), if_pos (by simp [hbin]), if_neg hc0, if_neg hc1]
  · intro st line st' h h514 h515
    unfold process_line at h
    by_cases hin : st.in_spectrum = false
    · rw [if_pos hin] at h
      cases h
      unfold start_spectrum
      split
      · rfl
      · rfl
    · rw [if_neg hin] at h
      by_cases he : containsSub line (str "</spectrum>") = true
      · rw [if_pos he] at h
        cases h
        rfl
      · rw [if_neg he] at h
        by_cases hb : banned_phrases line = true
        · rw [if_pos hb] at h
          cases h
          rfl
        · rw [if_neg hb] at h
          unfold extract_information at h
          by_cases c1 : containsSub line (str "MS:1000511") = true
          · rw [if_pos c1] at h; cases h; rfl
          · rw [if_neg c1] at h
            by_cases c2 : containsSub line (str "MS:1000796") = true
            · rw [if_pos c2] at h; cases h; rfl
            · rw [if_neg c2] at h
              by_cases c3 : containsSub line (str "MS:1000016") = true
              · rw [if_pos c3] at h
                cases hv : findValue line with
                | none => simp only [hv] at h; exact Except.noConfusion h
                | some v =>
                  simp only [hv] at h
                  cases hq : parseQ v with
                  | none => simp only [hq] at h; exact Except.noConfusion h
                  | some q => simp only [hq, Except.ok.injEq] at h; subst h; rfl
              · rw [if_neg c3] at h
                by_cases c4 : (containsSub line (str "MS:1000521")
                    || containsSub line (str "MS:1000523")) = true
                · rw [if_pos c4] at h; cases h; rfl
                · rw [if_neg c4] at h
                  by_cases c5 : containsSub line (str "MS:1000574") = true
                  · rw [if_pos c5] at h; cases h; rfl
                  · rw [if_neg c5] at h
                    by_cases c6 : containsSub line (str "MS:1000744") = true
                    · rw [if_pos c6] at h; cases h; rfl
                    · rw [if_neg c6] at h
                      by_cases c7 : containsSub line (str "<precursor spectrumRef") = true
                      · rw [if_pos c7] at h; cases h; rfl
                      · rw [if_neg c7] at h
                        by_cases c8 : containsSub line (str "MS:1000512") = true
                        · rw [if_pos c8] at h
                          cases hv : findValue line with
                          | none => simp only [hv] at h; exact Except.noConfusion h
                          | some v =>
                            simp only [hv] at h
                            cases hu : update_parent st.spec v with
                            | error e => simp only [hu] at h; exact Except.noConfusion h
                            | ok spec1 =>
                              simp only [hu, Except.ok.injEq] at h; subst h; rfl
                        · rw [if_neg c8] at h
                          rw [if_neg (by simp [h514])] at h
                          rw [if_neg (by simp [h515])] at h
                          by_cases cb : containsSub line (str "<binary>") = true
                          · rw [if_pos cb] at h
                            by_cases d0 : st.curr_spec_bin_type = 0
                            · rw [if_pos d0] at h; cases h; rfl
                            · rw [if_neg d0] at h
                              by_cases d1 : st.curr_spec_bin_type = 1
                              · rw [if_pos d1] at h; cases h; rfl
                              · rw [if_neg d1] at h; exact Except.noConfusion h
                          · rw [if_neg cb] at h
                            cases h
                            rfl

/-- C3 amended witness: from a fresh in-spectrum state (marker flag still
`-1`) a bare binary line is the fatal error, and a binary line after the
m/z marker leaves the flag untouched. -/
theorem C3_amended_witness :
    process_line { initState with in_spectrum := true } (str "<binary>QQ==</binary>") =
      Except.error (str "Error setting binary type") ∧
    exC3mid'.curr_spec_bin_type = exC3mid.curr_spec_bin_type := by
  constructor
  · exact C3_amended.1 { initState with in_spectrum := true }
      (str "<binary>QQ==</binary>") rfl (by decide) (by decide) (by decide) (by decide)
      (by decide) (by decide) (by decide) (by decide) (by decide) (by decide) (by decide)
      (by decide) (by decide) (by decide) (by decide) (by decide)
  · exact C3_amended.2 exC3mid (str "<binary>QQ==</binary>") exC3mid'
      (by decide) (by decide) (by decide)

theorem lexLe_total : ∀ a b : Str, lexLe a b = true ∨ lexLe b a = true
  | [], _ => Or.inl rfl
  | _ :: _, [] => Or.inr rfl
  | a :: as, b :: bs => by
    unfold lexLe
    rcases Nat.lt_trichotomy a.toNat b.toNat with h | h | h
    · left
      rw [if_pos h]
    · rw [if_neg (by omega), if_neg (by omega), if_neg (by omega), if_neg (by omega)]
      exact lexLe_total as bs
    · right
      rw [if_pos h]

theorem lexLe_trans : ∀ a b c : Str,
    lexLe a b = true → lexLe b c = true → lexLe a c = true
  | [], _, _ => fun _ _ => rfl
  | _ :: _, [], _ => fun h _ => absurd h Bool.false_ne_true
  | a :: as, b :: bs, [] => fun _ h => absurd h Bool.false_ne_true
  | a :: as, b :: bs, c :: cs => fun h1 h2 => by
    unfold lexLe at h1 h2 ⊢
    by_cases hab : a.toNat < b.toNat
    · by_cases hbc : b.toNat < c.toNat
      · rw [if_pos (by omega)]
      · rw [if_neg hbc] at h2
        by_cases hcb : c.toNat < b.toNat
        · rw [if_pos hcb] at h2
          exact absurd h2 Bool.false_ne_true
        · rw [if_pos (by omega)]
    · rw [if_neg hab] at h1
      by_cases hba : b.toNat < a.toNat
      · rw [if_pos hba] at h1
        exact absurd h1 Bool.false_ne_true
      · rw [if_neg hba] at h1
        by_cases hbc : b.toNat < c.toNat
        · rw [if_pos (by omega)]
        · rw [if_neg hbc] at h2
          by_cases hcb : c.toNat < b.toNat
          · rw [if_pos hcb] at h2
            exact absurd h2 Bool.false_ne_true
          · rw [if_neg hcb] at h2
            rw [if_neg (by omega), if_neg (by omega)]
            exact lexLe_trans as bs cs h1 h2

instance : IsTotal ProcSpec rtLe :=
  ⟨fun a b => lexLe_total a.retention_time b.retention_time⟩

instance : IsTrans ProcSpec rtLe :=
  ⟨fun _ _ _ h1 h2 => lexLe_trans _ _ _ h1 h2⟩

theorem build_enum_all (l : List ProcSpec) :
    ∀ n : Nat, (∀ s ∈ l, massListOf s.serialized ≠ []) →
      (List.enumFrom n l).filterMap (fun p =>
        if massListOf p.2.serialized = [] then none
        else some (str "spectrum_" ++ natStr (p.1 + 1), p.2.serialized)) =
      (List.enumFrom n l).map (fun p =>
        (str "spectrum_" ++ natStr (p.1 + 1), p.2.serialized)) := by
  induction l with
  | nil => intro n _; rfl
  | cons s l ih =>
    intro n hall
    rw [List.enumFrom_cons, List.filterMap_cons, List.map_cons]
    rw [if_neg (hall s (List.mem_cons_self _ _))]
    rw [ih (n + 1) (fun x hx => hall x (List.mem_cons_of_mem _ hx))]

theorem build_enum_len (l : List ProcSpec) :
    ∀ n : Nat,
      ((List.enumFrom n l).filterMap (fun p =>
        if massListOf p.2.serialized = [] then none
        else some (str "spectrum_" ++ natStr (p.1 + 1), p.2.serialized))).length =
      (l.filter (fun s => !decide (massListOf s.serialized = []))).length := by
  induction l with
  | nil => intro _; rfl
  | cons s l ih =>
    intro n
    rw [List.enumFrom_cons, List.filterMap_cons, List.filter_cons]
    by_cases hc : massListOf s.serialized = []
    · rw [if_pos hc]
      simp [hc, ih (n + 1)]
    · rw [if_neg hc]
      simp [hc, ih (n + 1)]

theorem build_sublist (l : List ProcSpec) :
    ∀ n : Nat,
      List.Sublist
        (((List.enumFrom n l).filterMap (fun p =>
          if massListOf p.2.serialized = [] then none
          else some (str "spectrum_" ++ natStr (p.1 + 1), p.2.serialized))).map Prod.snd)
        (l.map (fun s => s.serialized)) := by
  induction l with
  | nil => intro _; exact List.nil_sublist _
  | cons s l ih =>
    intro n
    rw [List.enumFrom_cons, List.filterMap_cons, List.map_cons]
    by_cases hc : massListOf s.serialized = []
    · rw [if_pos hc]
      exact (ih (n + 1)).trans (List.sublist_cons_self _ _)
    · rw [if_neg hc]
      exact List.Sublist.cons₂ _ (ih (n + 1))

/-- C1 amended: in `build_output` the `spectrum_<n>` index comes from the
record's position in the FULL sorted bucket, so a spectrum with an empty
`mass_list` is omitted from the output but still consumes its index (the
remaining keys have gaps where spectra were dropped); only when no spectrum
of the bucket is dropped are the keys the consecutive `spectrum_1 ...
spectrum_n`.  The output length always equals the number of spectra with a
non-empty `mass_list`. -/
theorem C1_amended :
    (∀ specs : List ProcSpec, (∀ s ∈ specs, massListOf s.serialized ≠ []) →
      build_level specs = (sortedByRt specs).enum.map
        (fun p => (str "spectrum_" ++ natStr (p.1 + 1), p.2.serialized))) ∧
    (∀ specs : List ProcSpec,
      (build_level specs).length =
        (specs.filter (fun s => !decide (massListOf s.serialized = []))).length) := by
  constructor
  · intro specs hall
    exact build_enum_all (sortedByRt specs) 0
      (fun s hs => hall s ((List.perm_insertionSort rtLe specs).mem_iff.1 hs))
  · intro specs
    rw [show build_level specs = (List.enumFrom 0 (sortedByRt specs)).filterMap (fun p =>
        if massListOf p.2.serialized = [] then none
        else some (str "spectrum_" ++ natStr (p.1 + 1), p.2.serialized)) from rfl]
    rw [build_enum_len (sortedByRt specs) 0]
    have hperm : List.Perm (sortedByRt specs) specs := List.perm_insertionSort rtLe specs
    have := (hperm.filter (fun s => !decide (massListOf s.serialized = []))).length_eq
    exact this

/-- C1 counterexample: with two spectra in the bucket — the earlier one
(sorted first) empty after filtering — the single surviving spectrum is
keyed `spectrum_2`, not `spectrum_1`: the dropped spectrum consumed an
index and the keys are not the consecutive sequence the claim states. -/
theorem C1_counterexample :
    build_level [emptyPS, mkPS (str "2.0")] = [(str "spectrum_2", mkDict (str "2.0"))] ∧
    (build_level [emptyPS, mkPS (str "2.0")]).map Prod.fst ≠ [str "spectrum_1"] ∧
    massListOf emptyPS.serialized = [] := by decide

/-- C1 amended witness: a two-spectrum bucket with nothing dropped gets the
consecutive keys from the sorted enumeration. -/
theorem C1_amended_witness :
    build_level [mkPS (str "2.0"), mkPS (str "1.0")] =
      (sortedByRt [mkPS (str "2.0"), mkPS (str "1.0")]).enum.map
        (fun p => (str "spectrum_" ++ natStr (p.1 + 1), p.2.serialized)) :=
  C1_amended.1 [mkPS (str "2.0"), mkPS (str "1.0")] (by decide)

/-- C2 amended: `build_output` sorts each bucket by the retention-time
STRING (Python compares the stored strings lexicographically), so the
output spectra are pairwise ordered by the lexicographic order of their
`retention_time` strings — not by their numeric values; for the spec's
example `[3.0, 1.0, 2.0]` the two orders agree and the output carries
retention times 1.0, 2.0, 3.0. -/
theorem C2_amended :
    (∀ specs : List ProcSpec,
      (∀ s ∈ specs, rtStrOfDict s.serialized = s.retention_time) →
      ((build_level specs).map Prod.snd).Pairwise
        (fun d e => lexLe (rtStrOfDict d) (rtStrOfDict e) = true)) ∧
    (build_level [mkPS (str "3.0"), mkPS (str "1.0"), mkPS (str "2.0")] =
      [(str "spectrum_1", mkDict (str "1.0")), (str "spectrum_2", mkDict (str "2.0")),
       (str "spectrum_3", mkDict (str "3.0"))] ∧
     rtOfDict (mkDict (str "1.0")) = 1 ∧ rtOfDict (mkDict (str "2.0")) = 2 ∧
     rtOfDict (mkDict (str "3.0")) = 3) := by
  constructor
  · intro specs hwf
    have hsorted : (sortedByRt specs).Pairwise rtLe :=
      List.sorted_insertionSort rtLe specs
    have hmem : ∀ s ∈ sortedByRt specs, rtStrOfDict s.serialized = s.retention_time :=
      fun s hs => hwf s ((List.perm_insertionSort rtLe specs).mem_iff.1 hs)
    have hp2 : ((sortedByRt specs).map (fun s => s.serialized)).Pairwise
        (fun d e => lexLe (rtStrOfDict d) (rtStrOfDict e) = true) := by
      rw [List.pairwise_map]
      refine hsorted.imp_of_mem ?_
      intro a b ha hb hab
      rw [hmem a ha, hmem b hb]
      exact hab
    exact hp2.sublist (build_sublist (sortedByRt specs) 0)
  · exact ⟨by decide, by decide, by decide, by decide⟩

/-- C2 counterexample: retention-time strings `"10.0"` and `"9.0"` sort
lexicographically (`"10.0" < "9.0"`), so `spectrum_1` carries the NUMERICALLY
larger retention time 10.0 and `spectrum_2` carries 9.0 — the numeric
ascending order the claim states is violated. -/
theorem C2_counterexample :
    build_level [mkPS (str "10.0"), mkPS (str "9.0")] =
      [(str "spectrum_1", mkDict (str "10.0")), (str "spectrum_2", mkDict (str "9.0"))] ∧
    rtOfDict (mkDict (str "10.0")) = 10 ∧ rtOfDict (mkDict (str "9.0")) = 9 ∧
    ¬ rtOfDict (mkDict (str "10.0")) ≤ rtOfDict (mkDict (str "9.0")) := by decide

/-- C2 amended witness: on the spec's example bucket the output is pairwise
ordered by the retention-time strings. -/
theorem C2_amended_witness :
    ((build_level [mkPS (str "3.0"), mkPS (str "1.0"), mkPS (str "2.0")]).map
      Prod.snd).Pairwise
      (fun d e => lexLe (rtStrOfDict d) (rtStrOfDict e) = true) :=
  C2_amended.1 [mkPS (str "3.0"), mkPS (str "1.0"), mkPS (str "2.0")] (by decide)

theorem keysOf_dinsert {d : SpecDict} {k : SpecKey} {v : SpecVal} {x : SpecKey}
    (h : x ∈ keysOf (dinsert d k v)) : x = k ∨ x ∈ keysOf d := by
  unfold keysOf at *
  rcases List.mem_map.1 h with ⟨p, hp, rfl⟩
  rcases mem_dinsert hp with h1 | h1
  · right
    exact List.mem_map_of_mem _ h1
  · left
    exact h1

theorem dinsert_notmem : ∀ {d : SpecDict} {k : SpecKey} (v : SpecVal),
    k ∉ keysOf d → dinsert d k v = d ++ [(k, v)]
  | [], _, v, _ => rfl
  | (q, w) :: t, k, v, h => by
    have hqk : ¬ q = k := by
      intro hq
      exact h (hq ▸ List.mem_cons_self _ _)
    unfold dinsert
    rw [if_neg hqk]
    rw [dinsert_notmem v (fun hm => h (List.mem_cons_of_mem _ hm))]
    rfl

theorem fold_keys_subset (key : (ℚ × ℚ) → SpecKey) (val : (ℚ × ℚ) → SpecVal) :
    ∀ (ps : List (ℚ × ℚ)) (d : SpecDict) (k : SpecKey),
      k ∈ keysOf (ps.foldl (fun dd x => dinsert dd (key x) (val x)) d) →
      k ∈ keysOf d ∨ ∃ x ∈ ps, k = key x := by
  intro ps
  induction ps with
  | nil => intro d k h; exact Or.inl h
  | cons x ps ih =>
    intro d k h
    rw [List.foldl_cons] at h
    rcases ih (dinsert d (key x) (val x)) k h with h1 | h1
    · rcases keysOf_dinsert h1 with h2 | h2
      · right
        exact ⟨x, List.mem_cons_self _ _, h2⟩
      · left
        exact h2
    · rcases h1 with ⟨y, hy, hk⟩
      right
      exact ⟨y, List.mem_cons_of_mem _ hy, hk⟩

theorem fmt4_mem_dot (q : ℚ) : '.' ∈ fmt4 q := by
  simp only [fmt4]
  simp [List.mem_append]

theorem fmt4_ne_of_no_dot {t : Str} (h : '.' ∉ t) (q : ℚ) : fmt4 q ≠ t :=
  fun he => h (he ▸ fmt4_mem_dot q)

theorem isNonMassKey_fmt4 (q : ℚ) : isNonMassKey (SpecKey.str (fmt4 q)) = false := by
  simp only [isNonMassKey]
  rw [Bool.eq_false_iff]
  intro hc
  have hmem : fmt4 q ∈ NON_MASS_KEYS := List.mem_of_elem_eq_true hc
  unfold NON_MASS_KEYS at hmem
  rcases List.mem_cons.1 hmem with h1 | hmem
  · exact fmt4_ne_of_no_dot (by decide) q h1
  rcases List.mem_cons.1 hmem with h1 | hmem
  · exact fmt4_ne_of_no_dot (by decide) q h1
  rcases List.mem_cons.1 hmem with h1 | hmem
  · exact fmt4_ne_of_no_dot (by decide) q h1
  rcases List.mem_cons.1 hmem with h1 | hmem
  · exact fmt4_ne_of_no_dot (by decide) q h1
  rcases List.mem_cons.1 hmem with h1 | hmem
  · exact fmt4_ne_of_no_dot (by decide) q h1
  · exact absurd hmem (List.not_mem_nil _)

theorem fold_dinsert_eq :
    ∀ (ps : List (ℚ × ℚ)) (d : SpecDict),
      (∀ p ∈ ps, SpecKey.str (fmt4 p.1) ∉ keysOf d) →
      (ps.map (fun p => fmt4 p.1)).Nodup →
      ps.foldl (fun dd p => dinsert dd (SpecKey.str (fmt4 p.1)) (SpecVal.int (truncQ p.2))) d =
        d ++ ps.map (fun p => (SpecKey.str (fmt4 p.1), SpecVal.int (truncQ p.2)))
  | [], d, _, _ => by simp
  | p :: ps, d, hnotin, hnd => by
    have hhead := (List.nodup_cons.1 hnd).1
    have hnd2 := (List.nodup_cons.1 hnd).2
    have hn : ∀ q ∈ ps, SpecKey.str (fmt4 q.1) ∉
        keysOf (d ++ [(SpecKey.str (fmt4 p.1), SpecVal.int (truncQ p.2))]) := by
      intro q hq hkq
      unfold keysOf at hkq
      rw [List.map_append, List.mem_append] at hkq
      rcases hkq with hkq | hkq
      · exact hnotin q (List.mem_cons_of_mem _ hq) hkq
      · simp only [List.map_cons, List.map_nil, List.mem_singleton,
          SpecKey.str.injEq] at hkq
        have hmm : fmt4 q.1 ∈ ps.map (fun r => fmt4 r.1) := List.mem_map_of_mem _ hq
        rw [hkq] at hmm
        exact hhead hmm
    rw [List.foldl_cons, dinsert_notmem _ (hnotin p (List.mem_cons_self _ _)),
      fold_dinsert_eq ps _ hn hnd2]
    simp

theorem massCount_dinsert_nonmass : ∀ (d : SpecDict) (k : SpecKey) (v : SpecVal),
    isNonMassKey k = true → massCount (dinsert d k v) = massCount d
  | [], k, v, h => by simp [massCount, dinsert, List.countP_cons, h]
  | (q, w) :: t, k, v, h => by
    unfold dinsert
    by_cases hq : q = k
    · subst hq
      rw [if_pos rfl]
      unfold massCount
      rw [List.countP_cons, List.countP_cons]
    · rw [if_neg hq]
      have ih := massCount_dinsert_nonmass t k v h
      unfold massCount at ih ⊢
      rw [List.countP_cons, List.countP_cons, ih]

theorem massCount_map_kept (ps : List (ℚ × ℚ)) :
    massCount (ps.map (fun p => (SpecKey.str (fmt4 p.1), SpecVal.int (truncQ p.2)))) =
      ps.length := by
  unfold massCount
  induction ps with
  | nil => rfl
  | cons p ps ih =>
    rw [List.map_cons, List.countP_cons, ih]
    simp [isNonMassKey_fmt4]

theorem serialize_abs_shape {s : Spectrum} {d : SpecDict}
    (hrel : s.relative = false) (h : serialize s = some d) :
    ∀ k ∈ keysOf d, isNonMassKey k = true ∨
      ∃ p ∈ keptPairs s, k = SpecKey.str (fmt4 p.1) := by
  unfold serialize at h
  rw [hrel, if_neg Bool.false_ne_true, serialize_fold] at h
  simp only [Option.some.injEq] at h
  subst h
  intro k hk
  rcases keysOf_dinsert hk with rfl | hk
  · left; decide
  by_cases hps : s.parent_scan = []
  · rw [if_pos hps] at hk
    cases hpm : s.parent_mass with
    | some pm =>
      simp only [hpm] at hk
      rcases keysOf_dinsert hk with rfl | hk
      · left; decide
      rcases keysOf_dinsert hk with rfl | hk
      · left; decide
      rcases keysOf_dinsert hk with rfl | hk
      · left; decide
      rcases fold_keys_subset (fun p => SpecKey.str (fmt4 p.1))
          (fun p => SpecVal.int (truncQ p.2)) _ _ _ hk with h0 | ⟨p, hp, rfl⟩
      · exact absurd h0 (List.not_mem_nil _)
      · right; exact ⟨p, hp, rfl⟩
    | none =>
      simp only [hpm] at hk
      rcases keysOf_dinsert hk with rfl | hk
      · left; decide
      rcases keysOf_dinsert hk with rfl | hk
      · left; decide
      rcases fold_keys_subset (fun p => SpecKey.str (fmt4 p.1))
          (fun p => SpecVal.int (truncQ p.2)) _ _ _ hk with h0 | ⟨p, hp, rfl⟩
      · exact absurd h0 (List.not_mem_nil _)
      · right; exact ⟨p, hp, rfl⟩
  · rw [if_neg hps] at hk
    rcases keysOf_dinsert hk with rfl | hk
    · left; decide
    cases hpm : s.parent_mass with
    | some pm =>
      simp only [hpm] at hk
      rcases keysOf_dinsert hk with rfl | hk
      · left; decide
      rcases keysOf_dinsert hk with rfl | hk
      · left; decide
      rcases keysOf_dinsert hk with rfl | hk
      · left; decide
      rcases fold_keys_subset (fun p => SpecKey.str (fmt4 p.1))
          (fun p => SpecVal.int (truncQ p.2)) _ _ _ hk with h0 | ⟨p, hp, rfl⟩
      · exact absurd h0 (List.not_mem_nil _)
      · right; exact ⟨p, hp, rfl⟩
    | none =>
      simp only [hpm] at hk
      rcases keysOf_dinsert hk with rfl | hk
      · left; decide
      rcases keysOf_dinsert hk with rfl | hk
      · left; decide
      rcases fold_keys_subset (fun p => SpecKey.str (fmt4 p.1))
          (fun p => SpecVal.int (truncQ p.2)) _ _ _ hk with h0 | ⟨p, hp, rfl⟩
      · exact absurd h0 (List.not_mem_nil _)
      · right; exact ⟨p, hp, rfl⟩

theorem serialize_abs_count {s : Spectrum} {d : SpecDict}
    (hrel : s.relative = false)
    (hnd : ((keptPairs s).map (fun p => fmt4 p.1)).Nodup)
    (h : serialize s = some d) :
    massCount d = (keptPairs s).length := by
  unfold serialize at h
  rw [hrel, if_neg Bool.false_ne_true, serialize_fold] at h
  simp only [Option.some.injEq] at h
  subst h
  have key : ∀ ps : List (ℚ × ℚ), (ps.map (fun p => fmt4 p.1)).Nodup →
      massCount (ps.foldl (fun dd p => dinsert dd (SpecKey.str (fmt4 p.1))
        (SpecVal.int (truncQ p.2))) ([] : SpecDict)) = ps.length := by
    intro ps hnd2
    rw [fold_dinsert_eq ps [] (fun p _ => List.not_mem_nil _) hnd2, List.nil_append]
    exact massCount_map_kept ps
  rw [massCount_dinsert_nonmass _ _ _ (by decide)]
  by_cases hps : s.parent_scan = []
  · rw [if_pos hps]
    cases hpm : s.parent_mass with
    | some pm =>
      rw [massCount_dinsert_nonmass _ _ _ (by decide),
        massCount_dinsert_nonmass _ _ _ (by decide),
        massCount_dinsert_nonmass _ _ _ (by decide)]
      exact key _ hnd
    | none =>
      rw [massCount_dinsert_nonmass _ _ _ (by decide),
        massCount_dinsert_nonmass _ _ _ (by decide)]
      exact key _ hnd
  · rw [if_neg hps]
    rw [massCount_dinsert_nonmass _ _ _ (by decide)]
    cases hpm : s.parent_mass with
    | some pm =>
      rw [massCount_dinsert_nonmass _ _ _ (by decide),
        massCount_dinsert_nonmass _ _ _ (by decide),
        massCount_dinsert_nonmass _ _ _ (by decide)]
      exact key _ hnd
    | none =>
      rw [massCount_dinsert_nonmass _ _ _ (by decide),
        massCount_dinsert_nonmass _ _ _ (by decide)]
      exact key _ hnd

/-- C9 counterexample: the spectrum `exSpec9` keeps two masses that collide
at four decimals.  In absolute mode both collapse onto the single key
`"100.0000"` while `mass_list` keeps both entries (1 mass key vs length 2);
in relative mode the surviving ion is re-added under the FLOAT key `100`
(not a formatted string), and the claimed count equality fails there too. -/
theorem C9_counterexample :
    serialize (exSpec9 false) = some exDict9abs ∧
    massCount exDict9abs = 1 ∧
    (massListOf exDict9abs).length = 2 ∧
    serialize (exSpec9 true) = some exDict9rel ∧
    SpecKey.num 100 ∈ keysOf exDict9rel ∧
    isStrKey (SpecKey.num 100) = false ∧
    isNonMassKey (SpecKey.num 100) = false ∧
    SpecKey.num 100 ≠ SpecKey.str (str "base_peak") ∧
    massCountRel exDict9rel = 1 ∧
    (massListOf exDict9rel).length = 2 := by decide

/-- C9 amended: in absolute mode every key outside the fixed non-mass set is
the 4-decimal formatted string of a kept mass, and — provided the kept
masses remain pairwise distinct after 4-decimal formatting — the length of
`mass_list` equals the number of mass keys; in relative mode every key
outside the fixed set (`base_peak` included) is a numeric (float) key, not
a formatted string. -/
theorem C9_amended :
    (∀ (s : Spectrum) (d : SpecDict), s.relative = false → serialize s = some d →
      ∀ k ∈ keysOf d, isNonMassKey k = true ∨
        ∃ p ∈ keptPairs s, k = SpecKey.str (fmt4 p.1)) ∧
    (∀ (s : Spectrum) (d : SpecDict), s.relative = false →
      ((keptPairs s).map (fun p => fmt4 p.1)).Nodup → serialize s = some d →
      massCount d = (massListOf d).length) ∧
    (∀ (s : Spectrum) (d : SpecDict), s.relative = true → serialize s = some d →
      ∀ k ∈ keysOf d, isNonMassKey k = true ∨ k = SpecKey.str (str "base_peak") ∨
        ∃ q : ℚ, k = SpecKey.num q) := by
  refine ⟨?_, ?_, ?_⟩
  · intro s d hrel h
    exact serialize_abs_shape hrel h
  · intro s d hrel hnd h
    rw [serialize_abs_count hrel hnd h, serialize_abs_massList hrel h, List.length_map]
  · intro s d hrel h
    unfold serialize at h
    rw [hrel, if_pos rfl] at h
    unfold convert_to_relative at h
    split at h
    · exact Option.noConfusion h
    · split at h
      · exact Option.noConfusion h
      · simp only [Option.some.injEq] at h
        subst h
        intro k hk
        rcases keysOf_dinsert hk with rfl | hk
        · right; left; rfl
        rcases fold_keys_subset (fun ion : ℚ × ℚ => SpecKey.num ion.1) _ _ _ _ hk with
          h0 | ⟨ion, _, rfl⟩
        · left
          unfold keysOf at h0
          rcases List.mem_map.1 h0 with ⟨p, hp, rfl⟩
          exact (List.mem_filter.1 hp).2
        · right; right; exact ⟨ion.1, rfl⟩

/-- C9 amended witness: for an absolute-mode spectrum with distinct kept
masses the mass-key count equals the `mass_list` length. -/
theorem C9_amended_witness : massCount exDict9d = (massListOf exDict9d).length :=
  C9_amended.2.1 exSpec9d exDict9d rfl (by decide) (by decide)

end Mzmlripper
